import Mathlib

/-!
Verification of djeebus/find-org-pulls against its specification.

The repository contains two near-identical Go programs:
  - variant 1: package main (func main, getPrintables) in src/main.go;
  - variant 2: package cmd (FindOrgPulls, getRows) plus package lib with the
    JSON types.
Both fetch open pull requests for a fixed list of organizations over a
paginated GraphQL API, stream records through a channel, sort them by
creation timestamp, and print them classified into age buckets.

Shallow embedding conventions:
  - Go time.Time values are wall-clock nanoseconds as Int; time.Duration is
    an Int in nanoseconds (Go stores int64 nanoseconds; Time.Sub saturates
    at the int64 bounds, Time.Unix floors to seconds).
  - The mutable global bucket slice is threaded explicitly as a
    List Bucket state.
  - The fetcher loop is run against a pre-determined list of API results
    (one entry per HTTP request the loop issues); time.Parse is an
    abstract parameter of type String to Option Int, returning none exactly
    when Go time.Parse returns an error.
-/

namespace FindOrgPulls

/-- Nanoseconds per second: Go time durations are int64 nanosecond counts. -/
def nsPerSecond : Int := 1000000000

/-- Go time.Hour as a nanosecond count. -/
def Hour : Int := 3600 * nsPerSecond

/-- Go source: const Day = time.Hour * 24. -/
def Day : Int := Hour * 24

/-- Largest int64 value; Go time.Time.Sub saturates its Duration result here. -/
def maxInt64 : Int := 9223372036854775807

/-- Smallest int64 value; lower saturation bound of Go time.Time.Sub. -/
def minInt64 : Int := -9223372036854775808

/-- Go time.Time.Sub: the difference t minus u in nanoseconds, saturated to
the int64 range (Go doc: if the result exceeds the maximum or minimum value
storable in a Duration, the maximum or minimum duration is returned). -/
def timeSub (t u : Int) : Int :=
  let d := t - u
  if d > maxInt64 then maxInt64 else if d < minInt64 then minInt64 else d

/-- Go time.Time.Unix: whole seconds since the Unix epoch. Go stores a time
as integer seconds plus a nanosecond offset in the half-open range from 0 to
one second, so on total nanoseconds this is floor division. -/
def timeUnix (t : Int) : Int := Int.fdiv t nsPerSecond

/-- Wall-clock nanoseconds of Go's zero time.Time, 0001-01-01T00:00:00 UTC;
its Unix seconds value is -62135596800. Go time.Parse returns this zero
value together with the error when parsing fails. -/
def zeroTimeNs : Int := -62135596800 * nsPerSecond

/-- Go type bucket: threshold, label, and the two mutable counters. -/
structure Bucket where
  olderThan : Int
  label : String
  found : Bool
  count : Nat
  deriving DecidableEq

/-- Go source: var buckets, the five fixed age buckets, oldest first. -/
def initBuckets : List Bucket :=
  [ { olderThan := 365 * Day, label := "one year", found := false, count := 0 },
    { olderThan := 6 * 30 * Day, label := "six months", found := false, count := 0 },
    { olderThan := 3 * 30 * Day, label := "three months", found := false, count := 0 },
    { olderThan := 30 * Day, label := "one month", found := false, count := 0 },
    { olderThan := 7 * Day, label := "one week", found := false, count := 0 } ]

/-- Go func getBucketLabel, with the mutable global bucket slice made an
explicit argument and result: walk the buckets in order; skip every bucket
whose threshold the age does not strictly exceed; at the first bucket the
age exceeds, increment its count, and if its found flag is not yet set, set
it and return the transition label, otherwise return the empty string. If no
bucket is exceeded return the empty string with the state unchanged. -/
def getBucketLabel : List Bucket → Int → String × List Bucket
  | [], _ => ("", [])
  | b :: rest, age =>
    if age ≤ b.olderThan then
      let r := getBucketLabel rest age
      (r.1, b :: r.2)
    else
      if b.found then
        ("", { b with count := b.count + 1 } :: rest)
      else
        ("Older than " ++ b.label, { b with count := b.count + 1, found := true } :: rest)

/-- The per-record part of the collector's print loop: feed each age through
getBucketLabel in order, collecting the returned labels (empty string when
nothing is printed) and threading the bucket state. -/
def runLabels : List Bucket → List Int → List String × List Bucket
  | bs, [] => ([], bs)
  | bs, a :: rest =>
    let r := getBucketLabel bs a
    let s := runLabels r.2 rest
    (r.1 :: s.1, s.2)

/-- Sum of the bucket counters, as computed by the summary loop in main. -/
def countSum (bs : List Bucket) : Nat := (bs.map (fun b => b.count)).sum

/-- The final summary line of main prints the remainder: total record count
minus the sum of all bucket counts, as a Go int subtraction. -/
def newerRemainder (total : Nat) (bs : List Bucket) : Int :=
  (total : Int) - (countSum bs : Int)

/-- Analysis helper: the index of the first bucket whose threshold the age
strictly exceeds, none if the age exceeds no threshold. -/
def classify (age : Int) : List Bucket → Option Nat
  | [] => none
  | b :: rest =>
    if age > b.olderThan then some 0 else (classify age rest).map (fun n => n + 1)

/-- Analysis helper: increment the entry of a list at the given index, if any. -/
def bumpAt : Option Nat → List Nat → List Nat
  | none, l => l
  | some _, [] => []
  | some 0, c :: l => (c + 1) :: l
  | some (n + 1), c :: l => c :: bumpAt (some n) l

/-- Analysis helper: set the entry of a boolean list at the given index, if any. -/
def setTrue : Option Nat → List Bool → List Bool
  | none, l => l
  | some _, [] => []
  | some 0, _ :: l => true :: l
  | some (n + 1), c :: l => c :: setTrue (some n) l

/-- Analysis helper: the first bucket in the list whose threshold the age
strictly exceeds, the bucket the loop in getBucketLabel stops at. -/
def selectedBucket (age : Int) (bs : List Bucket) : Option Bucket :=
  bs.find? (fun b => age > b.olderThan)

/-- Analysis helper: the threshold of bucket k of the fixed bucket list. -/
def bucketThreshold (k : Nat) : Int :=
  ((initBuckets.get? k).map (fun b => b.olderThan)).getD 0

/-- Analysis helper: the label of bucket k of the fixed bucket list. -/
def bucketLabelName (k : Nat) : String :=
  ((initBuckets.get? k).map (fun b => b.label)).getD ""

/-- Analysis helper: the sequence of labels the print loop emits, recomputed
from just the found flags; proved equal to the first component of runLabels. -/
def labelsSpec : List Bool → List Int → List String
  | _, [] => []
  | F, a :: rest =>
    match classify a initBuckets with
    | none => "" :: labelsSpec F rest
    | some k =>
      (if F.getD k false then "" else "Older than " ++ bucketLabelName k)
        :: labelsSpec (setTrue (some k) F) rest

/-- Go type Printable of variant 1 (equally, variant 2's Row minus its Age
field): one open pull request's display data plus the parsed creation
timestamp, in wall-clock nanoseconds. -/
structure Printable where
  orgLogin : String
  repoName : String
  prNumber : Int
  prTitle : String
  prAuthor : String
  createdDate : Int
  deriving DecidableEq

/-- The comparison closure both variants pass to sort.Slice: strictly less
on the Unix-seconds values of the creation timestamps. -/
def printableLess (p q : Printable) : Prop :=
  timeUnix p.createdDate < timeUnix q.createdDate

instance (p q : Printable) : Decidable (printableLess p q) :=
  inferInstanceAs (Decidable (timeUnix p.createdDate < timeUnix q.createdDate))

/-- The postcondition Go sort.Slice establishes: the slice afterwards is a
permutation of its previous contents that is pairwise non-descending for
the comparison closure. sort.Slice is documented as not stable, so no
further property of the order of ties holds. -/
def sortSliceOutput (input output : List Printable) : Prop :=
  output.Perm input ∧ output.Pairwise (fun p q => ¬ printableLess q p)

/-- Non-decreasing in the full nanosecond creation timestamp. -/
def nonDecreasingCreated (l : List Printable) : Prop :=
  l.Pairwise (fun p q => p.createdDate ≤ q.createdDate)

/-- Non-decreasing in the Unix-seconds truncation of the creation timestamp. -/
def nonDecreasingUnix (l : List Printable) : Prop :=
  l.Pairwise (fun p q => timeUnix p.createdDate ≤ timeUnix q.createdDate)

/-- The pullRequest JSON node (lib.PullRequest): number, title, author
login, and the raw createdAt string. -/
structure PullRequest where
  number : Int
  title : String
  authorLogin : String
  createdAt : String
  deriving DecidableEq

/-- The repository JSON node (lib.Repository): name plus its open pull
request nodes. -/
structure Repository where
  name : String
  pullRequests : List PullRequest
  deriving DecidableEq

/-- The decoded data of one successful response page: the organization login
from data.organization, the repository nodes, and the edge cursors. -/
structure PageData where
  orgLogin : String
  repoNodes : List Repository
  edges : List String
  deriving DecidableEq

/-- Outcome of reading and decoding one 200 response body, mirroring the
stages of the fetcher loop. unreadable: ioutil.ReadAll fails. unparseable:
the first json.Unmarshal (into errorResponse) fails, carrying the JSON error
text. modelUnparseable: the errorResponse unmarshal succeeds with the given
top-level error message list but the second unmarshal (into the response
model) fails. parsed: both unmarshals succeed. The error list is none when
the errors key is absent (a nil Go slice) and some msgs when present, so an
empty-but-present errors array is some of the empty list. -/
inductive Body where
  | unreadable : Body
  | unparseable : String → Body
  | modelUnparseable : Option (List String) → String → Body
  | parsed : Option (List String) → PageData → Body
  deriving DecidableEq

/-- One HTTP round trip as the fetcher loop sees it: either the transport
fails with an error message, or a status code and a body arrive. -/
inductive ApiResult where
  | transportError : String → ApiResult
  | response : Int → Body → ApiResult
  deriving DecidableEq

/-- Go source: pageSize := 100. -/
def pageSize : Nat := 100

/-- How one fetcher run ends: ok through the short-page return nil, err
through any of the error returns, or starved when the supplied list of API
results runs out while the loop would issue another request. -/
inductive FetchOutcome where
  | ok : FetchOutcome
  | err : String → FetchOutcome
  | starved : FetchOutcome
  deriving DecidableEq

/-- What one fetcher run produced: the records sent on the channel in
order, the number of requests issued, the after variable of each issued
request in order, and the outcome. -/
structure RunResult where
  printables : List Printable
  requests : Nat
  afters : List (Option String)
  outcome : FetchOutcome
  deriving DecidableEq

/-- The records built from one decoded page: for every repository node, for
every pull request node, parse createdAt and build the record; Go discards
the time.Parse error with c, _ := time.Parse(...), so a failed parse yields
the zero time value. The parse argument models Go time.Parse with the
RFC3339 layout: none exactly when Go returns an error, otherwise some of
the parsed wall-clock nanoseconds. -/
def pagePrintables (parse : String → Option Int) (pd : PageData) : List Printable :=
  (pd.repoNodes.map (fun repo =>
    repo.pullRequests.map (fun pr =>
      Printable.mk pd.orgLogin repo.name pr.number pr.title pr.authorLogin
        ((parse pr.createdAt).getD zeroTimeNs)))).flatten

/-- The cursor loop at the bottom of the fetcher: the after variable is
overwritten with each edge cursor in order. -/
def overwriteAfter (after : Option String) (edges : List String) : Option String :=
  edges.foldl (fun _ c => some c) after

/-- Go func getPrintables (identically getRows of variant 2), run against a
pre-determined list of API results, one per request the loop issues,
threading the after variable. Error returns mirror the Go fmt.Errorf
messages. After a full page (edge count equal to pageSize) the loop
continues with the overwritten after variable; otherwise it returns nil. -/
def getPrintables (parse : String → Option Int) (after : Option String) :
    List ApiResult → RunResult
  | [] => RunResult.mk [] 0 [] FetchOutcome.starved
  | ApiResult.transportError m :: _ =>
    RunResult.mk [] 1 [after] (FetchOutcome.err ("failed to make request: " ++ m))
  | ApiResult.response status body :: rest =>
    if status ≠ 200 then
      RunResult.mk [] 1 [after]
        (FetchOutcome.err ("github returned " ++ toString status))
    else
      match body with
      | Body.unreadable =>
        RunResult.mk [] 1 [after] (FetchOutcome.err "cannot read response body")
      | Body.unparseable je =>
        RunResult.mk [] 1 [after]
          (FetchOutcome.err ("failed to unmarshal error: " ++ je))
      | Body.modelUnparseable errors je =>
        match errors with
        | some (e :: _) =>
          RunResult.mk [] 1 [after]
            (FetchOutcome.err ("failed to make graphql request: " ++ e))
        | _ =>
          RunResult.mk [] 1 [after]
            (FetchOutcome.err ("failed to unmarshal response: " ++ je))
      | Body.parsed errors pd =>
        match errors with
        | some (e :: _) =>
          RunResult.mk [] 1 [after]
            (FetchOutcome.err ("failed to make graphql request: " ++ e))
        | _ =>
          let ps := pagePrintables parse pd
          if pd.edges.length ≠ pageSize then
            RunResult.mk ps 1 [after] FetchOutcome.ok
          else
            let res := getPrintables parse (overwriteAfter after pd.edges) rest
            RunResult.mk (ps ++ res.printables) (1 + res.requests)
              (after :: res.afters) res.outcome

/-- Shorthand for an ordinary successful page response. -/
def goodPage (pd : PageData) : ApiResult :=
  ApiResult.response 200 (Body.parsed none pd)

/-- Variant 2's Row: the record plus the age computed inside getRows. -/
structure Row where
  orgLogin : String
  repoName : String
  prNumber : Int
  prTitle : String
  prAuthor : String
  createdDate : Int
  age : Int
  deriving DecidableEq

/-- getRows builds the Row with age computed at fetch time: now.Sub(c) with
the now captured once at the start of getRows, before the page loop. -/
def rowOfPrintable (fetchNow : Int) (p : Printable) : Row :=
  Row.mk p.orgLogin p.repoName p.prNumber p.prTitle p.prAuthor p.createdDate
    (timeSub fetchNow p.createdDate)

/-- One printed pull-request line, as formatted by both variants. The day
count int(age.Hours()/24) is idealized to exact integer division truncated
toward zero; float64 rounding is not modelled. -/
structure Line where
  days : Int
  orgLogin : String
  repoName : String
  prNumber : Int
  prTitle : String
  prAuthor : String
  deriving DecidableEq

/-- Day count shown at the front of each printed line. -/
def displayDays (age : Int) : Int := Int.tdiv age Day

/-- The print loop of variant 1 (func main): for each record of the sorted
slice, compute the age from the print-time now captured after sorting, emit
the bucket label and the formatted line, threading the bucket state. -/
def mainPrintLoop (printNow : Int) : List Bucket → List Printable →
    List String × List Line × List Bucket
  | bs, [] => ([], [], bs)
  | bs, p :: rest =>
    let age := timeSub printNow p.createdDate
    let r := getBucketLabel bs age
    let s := mainPrintLoop printNow r.2 rest
    (r.1 :: s.1,
      Line.mk (displayDays age) p.orgLogin p.repoName p.prNumber p.prTitle
        p.prAuthor :: s.2.1,
      s.2.2)

/-- The print loop of variant 2 (FindOrgPulls): identical to variant 1's
except that the age is the one stored in the Row at fetch time. -/
def cmdPrintLoop : List Bucket → List Row →
    List String × List Line × List Bucket
  | bs, [] => ([], [], bs)
  | bs, p :: rest =>
    let r := getBucketLabel bs p.age
    let s := cmdPrintLoop r.2 rest
    (r.1 :: s.1,
      Line.mk (displayDays p.age) p.orgLogin p.repoName p.prNumber p.prTitle
        p.prAuthor :: s.2.1,
      s.2.2)

/-- Variant 2's sort comparison on rows, like variant 1's on printables. -/
def rowLess (p q : Row) : Prop :=
  timeUnix p.createdDate < timeUnix q.createdDate

example : (getBucketLabel initBuckets (400 * Day)).1 = "Older than one year" := by decide
example : (getBucketLabel initBuckets (365 * Day)).1 = "Older than six months" := by decide
example : (getBucketLabel initBuckets (3 * Day)).1 = "" := by decide
example : classify (365 * Day + nsPerSecond) initBuckets = some 0 := by decide
example : classify (365 * Day) initBuckets = some 1 := by decide
example : classify (3 * Day) initBuckets = none := by decide

theorem getBucketLabel_olderThan (age : Int) :
    ∀ bs : List Bucket,
      ((getBucketLabel bs age).2).map (fun b => b.olderThan)
        = bs.map (fun b => b.olderThan) := by
  intro bs
  induction bs with
  | nil => rfl
  | cons b rest ih =>
    by_cases h : age ≤ b.olderThan
    · simp [getBucketLabel, h, ih]
    · by_cases hf : b.found <;> simp [getBucketLabel, h, hf]

theorem getBucketLabel_label (age : Int) :
    ∀ bs : List Bucket,
      ((getBucketLabel bs age).2).map (fun b => b.label)
        = bs.map (fun b => b.label) := by
  intro bs
  induction bs with
  | nil => rfl
  | cons b rest ih =>
    by_cases h : age ≤ b.olderThan
    · simp [getBucketLabel, h, ih]
    · by_cases hf : b.found <;> simp [getBucketLabel, h, hf]

theorem getBucketLabel_counts (age : Int) :
    ∀ bs : List Bucket,
      ((getBucketLabel bs age).2).map (fun b => b.count)
        = bumpAt (classify age bs) (bs.map (fun b => b.count)) := by
  intro bs
  induction bs with
  | nil => rfl
  | cons b rest ih =>
    by_cases h : age ≤ b.olderThan
    · have hlt : ¬ age > b.olderThan := not_lt.mpr h
      cases hc : classify age rest with
      | none => simp [getBucketLabel, classify, h, hlt, hc, bumpAt, ih]
      | some n => simp [getBucketLabel, classify, h, hlt, hc, bumpAt, ih]
    · have hlt : age > b.olderThan := lt_of_not_ge h
      by_cases hf : b.found <;>
        simp [getBucketLabel, classify, h, hlt, hf, bumpAt]

theorem getBucketLabel_found (age : Int) :
    ∀ bs : List Bucket,
      ((getBucketLabel bs age).2).map (fun b => b.found)
        = setTrue (classify age bs) (bs.map (fun b => b.found)) := by
  intro bs
  induction bs with
  | nil => rfl
  | cons b rest ih =>
    by_cases h : age ≤ b.olderThan
    · have hlt : ¬ age > b.olderThan := not_lt.mpr h
      cases hc : classify age rest with
      | none => simp [getBucketLabel, classify, h, hlt, hc, setTrue, ih]
      | some n => simp [getBucketLabel, classify, h, hlt, hc, setTrue, ih]
    · have hlt : age > b.olderThan := lt_of_not_ge h
      by_cases hf : b.found <;>
        simp [getBucketLabel, classify, h, hlt, hf, setTrue]

theorem getBucketLabel_emitted (age : Int) :
    ∀ bs : List Bucket,
      (getBucketLabel bs age).1 =
        match classify age bs with
        | none => ""
        | some i =>
          match bs.get? i with
          | none => ""
          | some b => if b.found then "" else "Older than " ++ b.label := by
  intro bs
  induction bs with
  | nil => rfl
  | cons b rest ih =>
    by_cases h : age ≤ b.olderThan
    · have hlt : ¬ age > b.olderThan := not_lt.mpr h
      cases hc : classify age rest with
      | none => simp [getBucketLabel, classify, h, hlt, hc, ih]
      | some n => simp [getBucketLabel, classify, h, hlt, hc, ih]
    · have hlt : age > b.olderThan := lt_of_not_ge h
      by_cases hf : b.found <;>
        simp [getBucketLabel, classify, h, hlt, hf]

theorem classify_lt_length {age : Int} :
    ∀ {bs : List Bucket} {i : Nat}, classify age bs = some i → i < bs.length := by
  intro bs
  induction bs with
  | nil => intro i h; simp [classify] at h
  | cons b rest ih =>
    intro i h
    by_cases hb : age > b.olderThan
    · simp [classify, hb] at h
      simp [List.length_cons]
      omega
    · simp [classify, hb] at h
      obtain ⟨n, hn, rfl⟩ := h
      exact Nat.succ_lt_succ (ih hn)

theorem classify_congr (age : Int) :
    ∀ (bs cs : List Bucket),
      bs.map (fun b => b.olderThan) = cs.map (fun b => b.olderThan) →
      classify age bs = classify age cs := by
  intro bs
  induction bs with
  | nil =>
    intro cs h
    cases cs with
    | nil => rfl
    | cons c cs => simp at h
  | cons b rest ih =>
    intro cs h
    cases cs with
    | nil => simp at h
    | cons c cs =>
      simp only [List.map_cons, List.cons.injEq] at h
      simp [classify, h.1, ih cs h.2]

theorem sum_bumpAt_some :
    ∀ (l : List Nat) (i : Nat), i < l.length →
      (bumpAt (some i) l).sum = l.sum + 1 := by
  intro l
  induction l with
  | nil => intro i h; simp at h
  | cons c rest ih =>
    intro i h
    cases i with
    | zero => simp [bumpAt]; omega
    | succ n =>
      have : n < rest.length := by simpa using h
      simp [bumpAt, ih n this]
      omega

theorem countSum_getBucketLabel (bs : List Bucket) (age : Int) :
    countSum (getBucketLabel bs age).2
      = countSum bs + (if (classify age bs).isSome then 1 else 0) := by
  unfold countSum
  rw [getBucketLabel_counts]
  cases hc : classify age bs with
  | none => simp [bumpAt]
  | some i =>
    have hi : i < bs.length := classify_lt_length hc
    have : i < (bs.map (fun b => b.count)).length := by simpa using hi
    simp [sum_bumpAt_some _ i this]

theorem runLabels_olderThan (ages : List Int) :
    ∀ bs : List Bucket,
      ((runLabels bs ages).2).map (fun b => b.olderThan)
        = bs.map (fun b => b.olderThan) := by
  induction ages with
  | nil => intro bs; rfl
  | cons a rest ih =>
    intro bs
    show ((runLabels (getBucketLabel bs a).2 rest).2).map (fun b => b.olderThan) = _
    rw [ih, getBucketLabel_olderThan]

theorem countSum_runLabels (ages : List Int) :
    ∀ bs : List Bucket,
      countSum (runLabels bs ages).2
        = countSum bs
          + (ages.filter (fun a => (classify a bs).isSome)).length := by
  induction ages with
  | nil => intro bs; simp [runLabels]
  | cons a rest ih =>
    intro bs
    show countSum (runLabels (getBucketLabel bs a).2 rest).2 = _
    rw [ih]
    rw [countSum_getBucketLabel]
    have hcong : ∀ x : Int, classify x (getBucketLabel bs a).2 = classify x bs := by
      intro x
      exact classify_congr x _ _ (getBucketLabel_olderThan a bs)
    have hfil : (rest.filter (fun x => (classify x (getBucketLabel bs a).2).isSome))
        = rest.filter (fun x => (classify x bs).isSome) := by
      apply List.filter_congr
      intro x _
      rw [hcong x]
    rw [hfil]
    cases hc : classify a bs with
    | none => simp [hc, List.filter_cons]
    | some i => simp [hc, List.filter_cons]; omega

theorem length_filter_isSome_add (ages : List Int) :
    (ages.filter (fun a => (classify a initBuckets).isSome)).length
      + (ages.filter (fun a => (classify a initBuckets).isNone)).length
      = ages.length := by
  induction ages with
  | nil => rfl
  | cons a rest ih =>
    cases hc : classify a initBuckets <;>
      simp [List.filter_cons, hc] <;> omega

/-- Claim C1: the bucket classification uses exactly five fixed thresholds ordered
oldest-first (365 days, 180 days, 90 days, 30 days, 7 days); for every
record age the thresholds are walked oldest-first, every threshold the age
does not exceed is skipped, and the first threshold the age exceeds has its
counter incremented while all other counters are unchanged, so at most one
counter is incremented per record. -/
theorem C1_bucket_walk :
    (initBuckets.map (fun b => b.olderThan)
        = [365 * Day, 180 * Day, 90 * Day, 30 * Day, 7 * Day]
      ∧ 365 * Day > 180 * Day ∧ 180 * Day > 90 * Day
      ∧ 90 * Day > 30 * Day ∧ 30 * Day > 7 * Day)
    ∧ (∀ (bs : List Bucket) (age : Int),
        ((getBucketLabel bs age).2).map (fun b => b.count)
          = bumpAt (classify age bs) (bs.map (fun b => b.count)))
    ∧ (∀ (bs : List Bucket) (age : Int),
        countSum (getBucketLabel bs age).2 ≤ countSum bs + 1) := by
  refine ⟨⟨by decide, by decide, by decide, by decide, by decide⟩, ?_, ?_⟩
  · intro bs age
    exact getBucketLabel_counts age bs
  · intro bs age
    rw [countSum_getBucketLabel]
    cases (classify age bs).isSome <;> simp

/-- Claim C2: a record age exactly equal to a bucket threshold never selects that
bucket, because the walk treats equality as not yet exceeded; concretely, an
age of exactly 365 days increments the six-months bucket (it is not
classified as older than one year), while 365 days plus one second
increments the one-year bucket. -/
theorem C2_threshold_equality :
    (∀ (bs : List Bucket) (age : Int) (b : Bucket),
        selectedBucket age bs = some b → age ≠ b.olderThan)
    ∧ ((getBucketLabel initBuckets (365 * Day)).2).map (fun b => b.count)
        = [0, 1, 0, 0, 0]
    ∧ (getBucketLabel initBuckets (365 * Day)).1 = "Older than six months"
    ∧ ((getBucketLabel initBuckets (365 * Day + nsPerSecond)).2).map
        (fun b => b.count) = [1, 0, 0, 0, 0]
    ∧ (getBucketLabel initBuckets (365 * Day + nsPerSecond)).1
        = "Older than one year" := by
  refine ⟨?_, by decide, by decide, by decide, by decide⟩
  intro bs age b h hne
  have hp := List.find?_some h
  simp at hp
  omega

/-- Witness for C2 at a concrete input: at age 365 days the selected bucket
is the six-months bucket and the age differs from its 180-day threshold. -/
theorem C2_threshold_equality_witness :
    (365 : Int) * Day
      ≠ (Bucket.mk (6 * 30 * Day) "six months" false 0).olderThan :=
  C2_threshold_equality.1 initBuckets (365 * Day)
    (Bucket.mk (6 * 30 * Day) "six months" false 0) (by decide)

/-- Claim C3: for any multiset of record ages, the sum of the five bucket counts
plus the printed newer-than remainder equals the total record count; the
remainder equals the number of records exceeding no threshold and is
non-negative. -/
theorem C3_summary_total (ages : List Int) :
    (countSum (runLabels initBuckets ages).2 : Int)
        + newerRemainder ages.length (runLabels initBuckets ages).2
      = ages.length
    ∧ newerRemainder ages.length (runLabels initBuckets ages).2
        = ((ages.filter (fun a => (classify a initBuckets).isNone)).length : Int)
    ∧ 0 ≤ newerRemainder ages.length (runLabels initBuckets ages).2 := by
  have hrun := countSum_runLabels ages initBuckets
  have hinit : countSum initBuckets = 0 := by decide
  have hlen := length_filter_isSome_add ages
  unfold newerRemainder
  rw [hrun, hinit]
  refine ⟨by push_cast; omega, by push_cast; omega, by push_cast; omega⟩

theorem setTrue_length : ∀ (o : Option Nat) (F : List Bool),
    (setTrue o F).length = F.length := by
  intro o F
  induction F generalizing o with
  | nil => cases o with
    | none => rfl
    | some n => cases n <;> rfl
  | cons c rest ih =>
    cases o with
    | none => rfl
    | some n =>
      cases n with
      | zero => rfl
      | succ m => simp [setTrue, ih (some m)]

theorem getD_setTrue_self : ∀ (F : List Bool) (m : Nat), m < F.length →
    (setTrue (some m) F).getD m false = true := by
  intro F
  induction F with
  | nil => intro m h; simp at h
  | cons c rest ih =>
    intro m h
    cases m with
    | zero => rfl
    | succ n =>
      have hn : n < rest.length := by simpa using h
      show (c :: setTrue (some n) rest).getD (n + 1) false = true
      rw [List.getD_cons_succ]
      exact ih n hn

theorem getD_setTrue_ne : ∀ (F : List Bool) (m k : Nat), k ≠ m →
    (setTrue (some m) F).getD k false = F.getD k false := by
  intro F
  induction F with
  | nil => intro m k _; cases m <;> rfl
  | cons c rest ih =>
    intro m k h
    cases m with
    | zero =>
      cases k with
      | zero => exact absurd rfl h
      | succ j => simp [setTrue, List.getD_cons_succ]
    | succ n =>
      cases k with
      | zero => rfl
      | succ j =>
        have hne : j ≠ n := fun he => h (by rw [he])
        show (c :: setTrue (some n) rest).getD (j + 1) false
            = (c :: rest).getD (j + 1) false
        rw [List.getD_cons_succ, List.getD_cons_succ]
        exact ih n j hne

theorem bucketLabelName_inj :
    ∀ m, m < 5 → ∀ k, k < 5 →
      "Older than " ++ bucketLabelName m = "Older than " ++ bucketLabelName k →
      m = k := by decide

theorem bucketLabelName_ne_empty :
    ∀ k, k < 5 → "Older than " ++ bucketLabelName k ≠ "" := by decide

theorem classify_eq_some_iff (x : Int) :
    ∀ (bs : List Bucket) (k : Nat),
      classify x bs = some k ↔
        ((∃ b, bs.get? k = some b ∧ x > b.olderThan)
          ∧ ∀ j b, j < k → bs.get? j = some b → x ≤ b.olderThan) := by
  intro bs
  induction bs with
  | nil =>
    intro k
    constructor
    · intro h; simp [classify] at h
    · rintro ⟨⟨b, hb, _⟩, _⟩; simp at hb
  | cons c rest ih =>
    intro k
    by_cases hc : x > c.olderThan
    · constructor
      · intro h
        have hk0 : k = 0 := by simp [classify, hc] at h; omega
        subst hk0
        exact ⟨⟨c, List.get?_cons_zero, hc⟩,
          fun j b hj _ => absurd hj (Nat.not_lt_zero j)⟩
      · rintro ⟨⟨b, hb, hxb⟩, hall⟩
        cases k with
        | zero => simp [classify, hc]
        | succ j =>
          exact absurd (hall 0 c (Nat.succ_pos j) List.get?_cons_zero)
            (not_le.mpr hc)
    · have hcle : x ≤ c.olderThan := not_lt.mp hc
      constructor
      · intro h
        cases k with
        | zero => simp [classify, hc] at h
        | succ j =>
          simp only [classify, if_neg hc, Option.map_eq_some'] at h
          obtain ⟨n, hn, hnj⟩ := h
          have hnj' : n = j := by omega
          subst hnj'
          obtain ⟨⟨b, hb, hxb⟩, hall⟩ := (ih n).mp hn
          refine ⟨⟨b, by simpa using hb, hxb⟩, ?_⟩
          intro j' b' hj' hb'
          cases j' with
          | zero =>
            have hb'c : c = b' := by simpa using hb'
            rw [← hb'c]; exact hcle
          | succ j'' =>
            exact hall j'' b' (Nat.lt_of_succ_lt_succ hj') (by simpa using hb')
      · rintro ⟨⟨b, hb, hxb⟩, hall⟩
        cases k with
        | zero =>
          have hbc : c = b := by simpa using hb
          rw [← hbc] at hxb
          exact absurd hxb (not_lt.mpr hcle)
        | succ j =>
          have hrest : classify x rest = some j := by
            refine (ih j).mpr ⟨⟨b, by simpa using hb, hxb⟩, ?_⟩
            intro j' b' hj' hb'
            exact hall (j' + 1) b' (Nat.succ_lt_succ hj') (by simpa using hb')
          simp [classify, hc, hrest]

theorem runLabels_eq_labelsSpec (ages : List Int) :
    ∀ bs : List Bucket,
      bs.map (fun b => b.olderThan) = initBuckets.map (fun b => b.olderThan) →
      bs.map (fun b => b.label) = initBuckets.map (fun b => b.label) →
      (runLabels bs ages).1 = labelsSpec (bs.map (fun b => b.found)) ages := by
  induction ages with
  | nil => intro bs _ _; rfl
  | cons a rest ih =>
    intro bs h1 h2
    have hcls : classify a bs = classify a initBuckets := classify_congr a _ _ h1
    have hrec : (runLabels (getBucketLabel bs a).2 rest).1
        = labelsSpec (((getBucketLabel bs a).2).map (fun b => b.found)) rest := by
      apply ih
      · rw [getBucketLabel_olderThan, h1]
      · rw [getBucketLabel_label, h2]
    show (getBucketLabel bs a).1 :: (runLabels (getBucketLabel bs a).2 rest).1
        = labelsSpec (bs.map (fun b => b.found)) (a :: rest)
    rw [hrec, getBucketLabel_found, hcls, getBucketLabel_emitted, hcls]
    cases hc : classify a initBuckets with
    | none => simp [labelsSpec, hc, setTrue]
    | some k =>
      have hk : k < initBuckets.length := classify_lt_length hc
      have hlen : bs.length = initBuckets.length := by
        have hmaps := congrArg List.length h1
        simpa using hmaps
      have hkbs : k < bs.length := by omega
      obtain ⟨b, hb⟩ : ∃ b, bs.get? k = some b := by
        rw [List.get?_eq_get hkbs]
        exact ⟨_, rfl⟩
      have hb2 : bs[k]? = some b := by
        rw [← List.get?_eq_getElem?]
        exact hb
      have hfound : (bs.map (fun x => x.found)).getD k false = b.found := by
        simp [List.getD, List.getElem?_map, hb2]
      have hlbl : bucketLabelName k = b.label := by
        have hgl := congrArg (fun l => l[k]?) h2
        simp only [List.getElem?_map, hb2] at hgl
        unfold bucketLabelName
        rw [List.get?_eq_getElem?, ← hgl]
        rfl
      simp only [labelsSpec, hc, hb, hfound, hlbl]

theorem labelsSpec_emits (k : Nat) (hk : k < 5) :
    ∀ (ages : List Int) (F : List Bool) (i : Nat), F.length = 5 →
      (labelsSpec F ages).get? i = some ("Older than " ++ bucketLabelName k) →
      (∃ a, ages.get? i = some a ∧ classify a initBuckets = some k)
      ∧ F.getD k false = false
      ∧ (∀ j b, j < i → ages.get? j = some b →
          classify b initBuckets ≠ some k) := by
  intro ages
  induction ages with
  | nil => intro F i hF h; simp [labelsSpec] at h
  | cons a rest ih =>
    intro F i hF h
    cases hc : classify a initBuckets with
    | none =>
      have heq : labelsSpec F (a :: rest) = "" :: labelsSpec F rest := by
        simp [labelsSpec, hc]
      rw [heq] at h
      cases i with
      | zero =>
        rw [List.get?_cons_zero] at h
        have : ("" : String) = "Older than " ++ bucketLabelName k := by
          simpa using h
        exact absurd this.symm (bucketLabelName_ne_empty k hk)
      | succ i' =>
        rw [List.get?_cons_succ] at h
        obtain ⟨⟨a', ha1, ha2⟩, hFk, hall⟩ := ih F i' hF h
        refine ⟨⟨a', by rw [List.get?_cons_succ]; exact ha1, ha2⟩, hFk, ?_⟩
        intro j b hj hjb
        cases j with
        | zero =>
          have hba : a = b := by simpa using hjb
          rw [← hba, hc]
          simp
        | succ j' =>
          exact hall j' b (Nat.lt_of_succ_lt_succ hj) (by simpa using hjb)
    | some m =>
      have hm5 : m < 5 := classify_lt_length hc
      have heq : labelsSpec F (a :: rest)
          = (if F.getD m false then "" else "Older than " ++ bucketLabelName m)
            :: labelsSpec (setTrue (some m) F) rest := by
        simp [labelsSpec, hc]
      rw [heq] at h
      cases i with
      | zero =>
        rw [List.get?_cons_zero] at h
        have hhd : (if F.getD m false then "" else "Older than " ++ bucketLabelName m)
            = "Older than " ++ bucketLabelName k := by simpa using h
        by_cases hFm : F.getD m false
        · rw [if_pos hFm] at hhd
          exact absurd hhd.symm (bucketLabelName_ne_empty k hk)
        · rw [if_neg hFm] at hhd
          have hmk : m = k := bucketLabelName_inj m hm5 k hk hhd
          subst hmk
          refine ⟨⟨a, List.get?_cons_zero, hc⟩, by simpa using hFm, ?_⟩
          intro j b hj _
          exact absurd hj (Nat.not_lt_zero j)
      | succ i' =>
        rw [List.get?_cons_succ] at h
        have hF' : (setTrue (some m) F).length = 5 := by
          rw [setTrue_length]; exact hF
        obtain ⟨⟨a', ha1, ha2⟩, hF'k, hall⟩ := ih (setTrue (some m) F) i' hF' h
        have hkm : k ≠ m := by
          intro hkm
          subst hkm
          have : (setTrue (some k) F).getD k false = true :=
            getD_setTrue_self F k (by omega)
          rw [this] at hF'k
          exact absurd hF'k (by decide)
        have hFk : F.getD k false = false := by
          rw [← getD_setTrue_ne F m k hkm]
          exact hF'k
        refine ⟨⟨a', by rw [List.get?_cons_succ]; exact ha1, ha2⟩, hFk, ?_⟩
        intro j b hj hjb
        cases j with
        | zero =>
          have hba : a = b := by simpa using hjb
          rw [← hba, hc]
          intro hsome
          exact hkm (by simpa using hsome.symm)
        | succ j' =>
          exact hall j' b (Nat.lt_of_succ_lt_succ hj) (by simpa using hjb)

/-- Claim C4: when the records are processed in ascending age order, each bucket's
transition label is emitted at most once, and only immediately before the
first record whose age exceeds that bucket's threshold: the emitting
record's age exceeds the threshold while every earlier record's age does
not. -/
theorem C4_label_once (ages : List Int) (hs : ages.Sorted (· ≤ ·))
    (k : Nat) (hk : k < 5) :
    (∀ i j,
        ((runLabels initBuckets ages).1).get? i
            = some ("Older than " ++ bucketLabelName k) →
        ((runLabels initBuckets ages).1).get? j
            = some ("Older than " ++ bucketLabelName k) →
        i = j)
    ∧ (∀ i,
        ((runLabels initBuckets ages).1).get? i
            = some ("Older than " ++ bucketLabelName k) →
        ∃ a, ages.get? i = some a ∧ a > bucketThreshold k
          ∧ ∀ j b, j < i → ages.get? j = some b → b ≤ bucketThreshold k) := by
  have hbridge : (runLabels initBuckets ages).1
      = labelsSpec (initBuckets.map (fun b => b.found)) ages :=
    runLabels_eq_labelsSpec ages initBuckets rfl rfl
  have hF : (initBuckets.map (fun b => b.found)).length = 5 := rfl
  have char : ∀ i,
      ((runLabels initBuckets ages).1).get? i
          = some ("Older than " ++ bucketLabelName k) →
      (∃ a, ages.get? i = some a ∧ classify a initBuckets = some k)
      ∧ (∀ j b, j < i → ages.get? j = some b →
          classify b initBuckets ≠ some k) := by
    intro i h
    rw [hbridge] at h
    obtain ⟨hex, _, hall⟩ := labelsSpec_emits k hk ages _ i hF h
    exact ⟨hex, hall⟩
  constructor
  · intro i j hi hj
    obtain ⟨⟨a, ha, hca⟩, halli⟩ := char i hi
    obtain ⟨⟨c, hc, hcc⟩, hallj⟩ := char j hj
    by_contra hne
    rcases Nat.lt_or_ge i j with hlt | hge
    · exact hallj i a hlt ha hca
    · have hlt : j < i := Nat.lt_of_le_of_ne hge (fun he => hne he.symm)
      exact halli j c hlt hc hcc
  · intro i hi
    obtain ⟨⟨a, ha, hca⟩, hall⟩ := char i hi
    obtain ⟨⟨bk, hbk, hgt⟩, hsmall⟩ :=
      (classify_eq_some_iff a initBuckets k).mp hca
    have hthr : bucketThreshold k = bk.olderThan := by
      unfold bucketThreshold
      rw [hbk]
      rfl
    refine ⟨a, ha, by rw [hthr]; exact hgt, ?_⟩
    intro j b hj hjb
    by_contra hgtb
    push_neg at hgtb
    rw [hthr] at hgtb
    obtain ⟨hjlen, hbget⟩ := List.get?_eq_some.mp hjb
    obtain ⟨hilen, haget⟩ := List.get?_eq_some.mp ha
    have hrel : ages.get ⟨j, hjlen⟩ ≤ ages.get ⟨i, hilen⟩ :=
      List.Sorted.rel_get_of_lt hs (by exact hj)
    rw [hbget, haget] at hrel
    have hclb : classify b initBuckets = some k := by
      refine (classify_eq_some_iff b initBuckets k).mpr ⟨⟨bk, hbk, hgtb⟩, ?_⟩
      intro j' b' hj' hb'
      exact le_trans hrel (hsmall j' b' hj' hb')
    exact hall j b hj hjb hclb

/-- Witness for C4 at a concrete run: with ages of 3 days and 10 days in
ascending order, the one-week label is emitted at position 1, the first
record exceeding the 7-day threshold. -/
theorem C4_label_once_witness :
    ∃ a, ([3 * Day, 10 * Day] : List Int).get? 1 = some a
      ∧ a > bucketThreshold 4
      ∧ ∀ j b, j < 1 → ([3 * Day, 10 * Day] : List Int).get? j = some b →
          b ≤ bucketThreshold 4 :=
  (C4_label_once [3 * Day, 10 * Day] (by decide) 4 (by decide)).2 1 (by decide)

/-- Counterexample to C5: two records created 0.7 seconds apart inside the
same Unix second compare as ties under the sort comparison, which truncates
to Unix seconds; the order with the later record first is therefore a valid
sort.Slice result, yet that printed sequence is not non-decreasing in the
full creation timestamp. -/
theorem C5_counterexample :
    sortSliceOutput
      [Printable.mk "o" "r" 1 "t" "a" 1200000000,
        Printable.mk "o" "r" 2 "t" "a" 1900000000]
      [Printable.mk "o" "r" 2 "t" "a" 1900000000,
        Printable.mk "o" "r" 1 "t" "a" 1200000000]
    ∧ ¬ nonDecreasingCreated
      [Printable.mk "o" "r" 2 "t" "a" 1900000000,
        Printable.mk "o" "r" 1 "t" "a" 1200000000] := by
  refine ⟨⟨List.Perm.swap _ _ _, ?_⟩, ?_⟩
  · unfold printableLess
    decide
  · unfold nonDecreasingCreated
    decide

/-- Claim C5, amended: after draining, the records are sorted so that the printed
sequence is non-decreasing in the Unix-seconds value of the creation
timestamp; records whose timestamps fall within the same second may appear
in either order, because the sort comparison only sees whole seconds. -/
theorem C5_sorted_by_unix_seconds (input output : List Printable)
    (h : sortSliceOutput input output) : nonDecreasingUnix output :=
  List.Pairwise.imp (fun hpq => not_lt.mp hpq) h.2

/-- Witness for the amended C5 at a concrete sorted output. -/
theorem C5_sorted_by_unix_seconds_witness :
    nonDecreasingUnix
      [Printable.mk "o" "r" 1 "t" "a" 1200000000,
        Printable.mk "o" "r" 2 "t" "a" 1900000000] :=
  C5_sorted_by_unix_seconds
    [Printable.mk "o" "r" 1 "t" "a" 1200000000,
      Printable.mk "o" "r" 2 "t" "a" 1900000000]
    [Printable.mk "o" "r" 1 "t" "a" 1200000000,
      Printable.mk "o" "r" 2 "t" "a" 1900000000]
    ⟨List.Perm.refl _, by unfold printableLess; decide⟩

theorem overwriteAfter_eq_last :
    ∀ (l : List String) (a : Option String) (h : l ≠ []),
      overwriteAfter a l = some (l.getLast h) := by
  intro l
  induction l with
  | nil => intro a h; exact absurd rfl h
  | cons c cs ih =>
    intro a h
    cases cs with
    | nil => rfl
    | cons d ds =>
      have hne : d :: ds ≠ [] := by simp
      show overwriteAfter (some c) (d :: ds) = some ((c :: d :: ds).getLast h)
      rw [ih (some c) hne, List.getLast_cons hne]

theorem getPrintables_goodPage_stop (parse : String → Option Int)
    (a : Option String) (pd : PageData) (rest : List ApiResult)
    (h : pd.edges.length ≠ pageSize) :
    getPrintables parse a (goodPage pd :: rest)
      = RunResult.mk (pagePrintables parse pd) 1 [a] FetchOutcome.ok := by
  simp [getPrintables, goodPage, h]

theorem getPrintables_goodPage_cont (parse : String → Option Int)
    (a : Option String) (pd : PageData) (rest : List ApiResult)
    (h : pd.edges.length = pageSize) :
    getPrintables parse a (goodPage pd :: rest)
      = RunResult.mk
          (pagePrintables parse pd
            ++ (getPrintables parse (overwriteAfter a pd.edges) rest).printables)
          (1 + (getPrintables parse (overwriteAfter a pd.edges) rest).requests)
          (a :: (getPrintables parse (overwriteAfter a pd.edges) rest).afters)
          (getPrintables parse (overwriteAfter a pd.edges) rest).outcome := by
  simp [getPrintables, goodPage, h]

/-- Counterexample to C6: a page with 101 edges — a count different from
the page size but not strictly less than it — also terminates the loop: the
run answers ok after a single request, never issuing the next one. -/
theorem C6_counterexample :
    getPrintables (fun _ => none) none
        [goodPage (PageData.mk "o" [] (List.replicate 101 "c")),
          goodPage (PageData.mk "o" [] [])]
      = RunResult.mk [] 1 [none] FetchOutcome.ok
    ∧ ¬ ((List.replicate 101 "c").length < pageSize) := by
  refine ⟨by decide, by decide⟩

/-- Claim C6, amended: the pagination loop terminates exactly when a page's edge
count differs from the requested page size of 100 — for well-formed pages
of at most 100 edges this is exactly the strictly-less condition; a page of
exactly 100 edges causes one further page request, and a subsequent page
with an empty edge list terminates the loop cleanly with zero extra
records. -/
theorem C6_pagination_terminates (parse : String → Option Int)
    (a : Option String) (pd : PageData) (rest : List ApiResult) :
    (pd.edges.length ≠ pageSize →
      getPrintables parse a (goodPage pd :: rest)
        = RunResult.mk (pagePrintables parse pd) 1 [a] FetchOutcome.ok)
    ∧ (pd.edges.length = pageSize →
      getPrintables parse a (goodPage pd :: rest)
        = RunResult.mk
            (pagePrintables parse pd
              ++ (getPrintables parse (overwriteAfter a pd.edges) rest).printables)
            (1 + (getPrintables parse (overwriteAfter a pd.edges) rest).requests)
            (a :: (getPrintables parse (overwriteAfter a pd.edges) rest).afters)
            (getPrintables parse (overwriteAfter a pd.edges) rest).outcome)
    ∧ getPrintables (fun _ => none) none
          [goodPage (PageData.mk "o" [] (List.replicate 100 "c")),
            goodPage (PageData.mk "o" [] [])]
        = RunResult.mk [] 2 [none, some "c"] FetchOutcome.ok := by
  exact ⟨getPrintables_goodPage_stop parse a pd rest,
    getPrintables_goodPage_cont parse a pd rest, by decide⟩

/-- Witness for the amended C6: a page with an empty edge list (count 0,
different from 100) terminates the run after its single request. -/
theorem C6_pagination_terminates_witness :
    getPrintables (fun _ => none) none [goodPage (PageData.mk "o" [] [])]
      = RunResult.mk [] 1 [none] FetchOutcome.ok :=
  (C6_pagination_terminates (fun _ => none) none (PageData.mk "o" [] []) []).1
    (by decide)

/-- Claim C7: with a faulty first response of any kind — transport error, non-200
status, unreadable body, unparseable body, or a non-empty top-level GraphQL
error list — the fetcher returns at once with exactly one error holding the
first error message verbatim, issues no further request, inspects no later
error in the list (the result does not depend on the tail of the error
list), and sends zero records for the organization (the result does not
depend on the page data or on any later response). -/
theorem C7_fetcher_aborts (parse : String → Option Int) (rest : List ApiResult) :
    (∀ m, getPrintables parse none (ApiResult.transportError m :: rest)
        = RunResult.mk [] 1 [none]
            (FetchOutcome.err ("failed to make request: " ++ m)))
    ∧ (∀ status body, status ≠ 200 →
        getPrintables parse none (ApiResult.response status body :: rest)
          = RunResult.mk [] 1 [none]
              (FetchOutcome.err ("github returned " ++ toString status)))
    ∧ (getPrintables parse none (ApiResult.response 200 Body.unreadable :: rest)
        = RunResult.mk [] 1 [none]
            (FetchOutcome.err "cannot read response body"))
    ∧ (∀ je, getPrintables parse none
          (ApiResult.response 200 (Body.unparseable je) :: rest)
        = RunResult.mk [] 1 [none]
            (FetchOutcome.err ("failed to unmarshal error: " ++ je)))
    ∧ (∀ e es pd, getPrintables parse none
          (ApiResult.response 200 (Body.parsed (some (e :: es)) pd) :: rest)
        = RunResult.mk [] 1 [none]
            (FetchOutcome.err ("failed to make graphql request: " ++ e))) := by
  refine ⟨fun m => rfl, ?_, ?_, fun je => ?_, fun e es pd => ?_⟩
  · intro status body h
    simp [getPrintables, h]
  · simp [getPrintables]
  · simp [getPrintables]
  · simp [getPrintables]

/-- Witness for C7: a 404 status aborts the run with the matching message
after one request and zero records. -/
theorem C7_fetcher_aborts_witness :
    getPrintables (fun _ => none) none [ApiResult.response 404 Body.unreadable]
      = RunResult.mk [] 1 [none]
          (FetchOutcome.err ("github returned " ++ toString (404 : Int))) :=
  (C7_fetcher_aborts (fun _ => none) []).2.1 404 Body.unreadable (by decide)

/-- Claim C8: for every response page with a non-empty edge list that keeps the
loop going, the after variable sent with the next page request is the last
edge's cursor of the current page, produced by sequentially overwriting the
variable with each edge's cursor in order. -/
theorem C8_cursor_is_last_edge (parse : String → Option Int)
    (a : Option String) (pd : PageData) (rest : List ApiResult)
    (h1 : pd.edges ≠ []) (h2 : pd.edges.length = pageSize) :
    overwriteAfter a pd.edges = some (pd.edges.getLast h1)
    ∧ (getPrintables parse a (goodPage pd :: rest)).afters
        = a :: (getPrintables parse (some (pd.edges.getLast h1)) rest).afters := by
  have hov := overwriteAfter_eq_last pd.edges a h1
  refine ⟨hov, ?_⟩
  rw [getPrintables_goodPage_cont parse a pd rest h2]
  rw [hov]

/-- Witness for C8: a full page of 100 identical cursors makes the next
request carry that cursor. -/
theorem C8_cursor_is_last_edge_witness :
    overwriteAfter none (List.replicate 100 "c")
        = some ((List.replicate 100 "c").getLast (by decide))
    ∧ (getPrintables (fun _ => none) none
          [goodPage (PageData.mk "o" [] (List.replicate 100 "c"))]).afters
        = none :: (getPrintables (fun _ => none)
            (some ((List.replicate 100 "c").getLast (by decide))) []).afters :=
  C8_cursor_is_last_edge (fun _ => none) none
    (PageData.mk "o" [] (List.replicate 100 "c")) [] (by decide) (by decide)

/-- Counterexample to C9: variant 1 computes ages at print time, not fetch
time. With a record created at time 0, a fetch-time now of exactly 365 days
and a print-time now one second later, variant 2 emits the six-months label
while variant 1 emits the one-year label, and the final bucket states
differ: the two variants do not produce identical bucket classifications. -/
theorem C9_counterexample :
    (mainPrintLoop (365 * Day + nsPerSecond) initBuckets
        [Printable.mk "o" "r" 1 "t" "a" 0]).1
      = ["Older than one year"]
    ∧ (cmdPrintLoop initBuckets
        [rowOfPrintable (365 * Day) (Printable.mk "o" "r" 1 "t" "a" 0)]).1
      = ["Older than six months"]
    ∧ (mainPrintLoop (365 * Day + nsPerSecond) initBuckets
          [Printable.mk "o" "r" 1 "t" "a" 0]).2.2
      ≠ (cmdPrintLoop initBuckets
          [rowOfPrintable (365 * Day) (Printable.mk "o" "r" 1 "t" "a" 0)]).2.2 := by
  exact ⟨by decide, by decide, by decide⟩

/-- Claim C9, amended: variant 2 computes each record's age once at fetch time
(the now captured at the start of getRows), variant 1 at print time (a
single now captured after sorting); whenever the two now values coincide,
the variants emit identical label sequences and printed lines, end with
identical bucket states, and their sort comparisons agree on every pair, so
apart from the moment now is captured there is no behavioral divergence. -/
theorem C9_variants_agree (now : Int) :
    (∀ (bs : List Bucket) (ps : List Printable),
      cmdPrintLoop bs (ps.map (rowOfPrintable now)) = mainPrintLoop now bs ps)
    ∧ ∀ p q : Printable,
        rowLess (rowOfPrintable now p) (rowOfPrintable now q)
          ↔ printableLess p q := by
  constructor
  · intro bs ps
    induction ps generalizing bs with
    | nil => rfl
    | cons p rest ih =>
      show cmdPrintLoop bs (rowOfPrintable now p :: rest.map (rowOfPrintable now))
          = mainPrintLoop now bs (p :: rest)
      simp [cmdPrintLoop, mainPrintLoop, rowOfPrintable, ih]
  · intro p q
    exact Iff.rfl

/-- Claim C10: a pull request whose createdAt fails to parse does not abort the
fetcher; its record is emitted with the zero time value as creation date,
it sorts strictly before every record with a creation timestamp at or after
the Unix epoch, and for any report-time now at or after the epoch its age
falls in the oldest one-year bucket. -/
theorem C10_bad_timestamp (parse : String → Option Int) (s : String)
    (hparse : parse s = none) (num : Int)
    (title author orgName rName : String) :
    (getPrintables parse none
        [ApiResult.response 200 (Body.parsed none
          (PageData.mk orgName [Repository.mk rName
            [PullRequest.mk num title author s]] []))]
      = RunResult.mk
          [Printable.mk orgName rName num title author zeroTimeNs]
          1 [none] FetchOutcome.ok)
    ∧ (∀ t : Int, 0 ≤ timeUnix t →
        printableLess (Printable.mk orgName rName num title author zeroTimeNs)
          (Printable.mk "x" "x" 0 "x" "x" t))
    ∧ (∀ now : Int, 0 ≤ now →
        classify (timeSub now zeroTimeNs) initBuckets = some 0
        ∧ bucketLabelName 0 = "one year") := by
  refine ⟨?_, ?_, ?_⟩
  · simp [getPrintables, pagePrintables, hparse, pageSize]
  · intro t ht
    show timeUnix zeroTimeNs < timeUnix t
    have hz : timeUnix zeroTimeNs = -62135596800 := by decide
    rw [hz]
    omega
  · intro now hnow
    have hgt : now - zeroTimeNs > maxInt64 := by
      unfold zeroTimeNs maxInt64 nsPerSecond
      omega
    have hsat : timeSub now zeroTimeNs = maxInt64 := by
      show (if now - zeroTimeNs > maxInt64 then maxInt64
        else if now - zeroTimeNs < minInt64 then minInt64
        else now - zeroTimeNs) = maxInt64
      rw [if_pos hgt]
    rw [hsat]
    exact ⟨by decide, by decide⟩

/-- Witness for C10 at a concrete run: an unparseable createdAt string
yields the zero-time record, which sorts before an epoch-dated record and
lands in the one-year bucket. -/
theorem C10_bad_timestamp_witness :
    (getPrintables (fun _ => none) none
        [ApiResult.response 200 (Body.parsed none
          (PageData.mk "o" [Repository.mk "r"
            [PullRequest.mk 1 "t" "a" "bogus"]] []))]
      = RunResult.mk [Printable.mk "o" "r" 1 "t" "a" zeroTimeNs]
          1 [none] FetchOutcome.ok)
    ∧ printableLess (Printable.mk "o" "r" 1 "t" "a" zeroTimeNs)
        (Printable.mk "x" "x" 0 "x" "x" 0)
    ∧ classify (timeSub 0 zeroTimeNs) initBuckets = some 0 := by
  obtain ⟨h1, h2, h3⟩ :=
    C10_bad_timestamp (fun _ => none) "bogus" rfl 1 "t" "a" "o" "r"
  exact ⟨h1, h2 0 (by decide), (h3 0 (by decide)).1⟩

end FindOrgPulls
